import Mathlib

/-!
# Verification of the apidouble request intermediary

Shallow embedding of the storage adapters (`src/storage/lowdb.adapter.ts`,
`src/storage/sqlite.adapter.ts`, `src/storage/base.ts`), the request
matcher and interceptor (`src/generators/faker.service.ts`), the chaos
engine (latency simulator, error injector, stats), and the server's
chaos-gate middleware (`src/core/server.ts`), together with theorems
settling the specification claims about them.

Modelling conventions:
* JavaScript values that flow through `JSON.stringify`/`JSON.parse` are
  modelled by the inductive `Json` tree; the serialize/parse round trip on
  such a tree is the identity, so rows that in SQLite hold the serialized
  TEXT are modelled as holding the tree itself (with SQL `NULL` as
  `Option.none`).
* Effects (`Date.now()`, `Math.random()`) are threaded as explicit
  parameters.
* JavaScript number arithmetic on scores and averages is modelled over `ℚ`.
-/

namespace ApiDouble

/-- A JSON value, as produced by `JSON.parse` of a request/response body. -/
inductive Json where
  | null : Json
  | bool (b : Bool) : Json
  | num (q : ℚ) : Json
  | str (s : String) : Json
  | arr (elems : List Json) : Json
  | obj (fields : List (String × Json)) : Json

mutual

/-- Decidable structural equality of JSON trees.  Two trees are equal exactly
when `JSON.stringify` would print them identically (object fields keep their
insertion order, as JavaScript objects do). -/
def Json.decEq : (a b : Json) → Decidable (a = b)
  | .null, .null => .isTrue rfl
  | .null, .bool _ => .isFalse fun h => Json.noConfusion h
  | .null, .num _ => .isFalse fun h => Json.noConfusion h
  | .null, .str _ => .isFalse fun h => Json.noConfusion h
  | .null, .arr _ => .isFalse fun h => Json.noConfusion h
  | .null, .obj _ => .isFalse fun h => Json.noConfusion h
  | .bool _, .null => .isFalse fun h => Json.noConfusion h
  | .bool a, .bool b =>
      if h : a = b then .isTrue (congrArg Json.bool h)
      else .isFalse fun hh => h (Json.bool.inj hh)
  | .bool _, .num _ => .isFalse fun h => Json.noConfusion h
  | .bool _, .str _ => .isFalse fun h => Json.noConfusion h
  | .bool _, .arr _ => .isFalse fun h => Json.noConfusion h
  | .bool _, .obj _ => .isFalse fun h => Json.noConfusion h
  | .num _, .null => .isFalse fun h => Json.noConfusion h
  | .num _, .bool _ => .isFalse fun h => Json.noConfusion h
  | .num a, .num b =>
      if h : a = b then .isTrue (congrArg Json.num h)
      else .isFalse fun hh => h (Json.num.inj hh)
  | .num _, .str _ => .isFalse fun h => Json.noConfusion h
  | .num _, .arr _ => .isFalse fun h => Json.noConfusion h
  | .num _, .obj _ => .isFalse fun h => Json.noConfusion h
  | .str _, .null => .isFalse fun h => Json.noConfusion h
  | .str _, .bool _ => .isFalse fun h => Json.noConfusion h
  | .str _, .num _ => .isFalse fun h => Json.noConfusion h
  | .str a, .str b =>
      if h : a = b then .isTrue (congrArg Json.str h)
      else .isFalse fun hh => h (Json.str.inj hh)
  | .str _, .arr _ => .isFalse fun h => Json.noConfusion h
  | .str _, .obj _ => .isFalse fun h => Json.noConfusion h
  | .arr _, .null => .isFalse fun h => Json.noConfusion h
  | .arr _, .bool _ => .isFalse fun h => Json.noConfusion h
  | .arr _, .num _ => .isFalse fun h => Json.noConfusion h
  | .arr _, .str _ => .isFalse fun h => Json.noConfusion h
  | .arr xs, .arr ys =>
      match Json.decEqElems xs ys with
      | .isTrue h => .isTrue (congrArg Json.arr h)
      | .isFalse h => .isFalse fun hh => h (Json.arr.inj hh)
  | .arr _, .obj _ => .isFalse fun h => Json.noConfusion h
  | .obj _, .null => .isFalse fun h => Json.noConfusion h
  | .obj _, .bool _ => .isFalse fun h => Json.noConfusion h
  | .obj _, .num _ => .isFalse fun h => Json.noConfusion h
  | .obj _, .str _ => .isFalse fun h => Json.noConfusion h
  | .obj _, .arr _ => .isFalse fun h => Json.noConfusion h
  | .obj xs, .obj ys =>
      match Json.decEqFields xs ys with
      | .isTrue h => .isTrue (congrArg Json.obj h)
      | .isFalse h => .isFalse fun hh => h (Json.obj.inj hh)

/-- Decidable equality of JSON array elements. -/
def Json.decEqElems : (xs ys : List Json) → Decidable (xs = ys)
  | [], [] => .isTrue rfl
  | [], _ :: _ => .isFalse fun h => List.noConfusion h
  | _ :: _, [] => .isFalse fun h => List.noConfusion h
  | x :: xs, y :: ys =>
      match Json.decEq x y, Json.decEqElems xs ys with
      | .isTrue h1, .isTrue h2 => .isTrue (by rw [h1, h2])
      | .isFalse h1, _ => .isFalse fun h => h1 (List.cons.inj h).1
      | .isTrue _, .isFalse h2 => .isFalse fun h => h2 (List.cons.inj h).2

/-- Decidable equality of JSON object field lists. -/
def Json.decEqFields : (xs ys : List (String × Json)) → Decidable (xs = ys)
  | [], [] => .isTrue rfl
  | [], _ :: _ => .isFalse fun h => List.noConfusion h
  | _ :: _, [] => .isFalse fun h => List.noConfusion h
  | (k, v) :: xs, (k', v') :: ys =>
      match String.decEq k k', Json.decEq v v', Json.decEqFields xs ys with
      | .isTrue h0, .isTrue h1, .isTrue h2 => .isTrue (by rw [h0, h1, h2])
      | .isFalse h0, _, _ =>
          .isFalse fun h => h0 (congrArg Prod.fst (List.cons.inj h).1)
      | .isTrue _, .isFalse h1, _ =>
          .isFalse fun h => h1 (congrArg Prod.snd (List.cons.inj h).1)
      | .isTrue _, .isTrue _, .isFalse h2 =>
          .isFalse fun h => h2 (List.cons.inj h).2

end

instance : DecidableEq Json := Json.decEq

/-- `RequestRecord` from `src/types/index.ts`. -/
structure RequestRecord where
  id : String
  method : String
  url : String
  path : String
  query : List (String × String)
  headers : List (String × String)
  body : Option Json
  timestamp : Int
deriving DecidableEq

/-- `ResponseRecord` from `src/types/index.ts`. -/
structure ResponseRecord where
  status : Int
  headers : List (String × String)
  body : Option Json
  timestamp : Int
deriving DecidableEq

/-- `RecordedEntry` from `src/types/index.ts`. -/
structure RecordedEntry where
  id : String
  request : RequestRecord
  response : ResponseRecord
  createdAt : Int
deriving DecidableEq

/-- `generateId` from `src/storage/base.ts`:
`` `${Date.now()}-${Math.random().toString(36).substring(2, 9)}` ``.
The millisecond clock reading and the random base-36 suffix are explicit
parameters. -/
def generateId (nowMs : Nat) (suffix : String) : String :=
  toString nowMs ++ "-" ++ suffix


/-! ### Structural string helpers

`String.splitOn`, `String.toUpper` and `String.startsWith` from the core
library are defined by well-founded position recursion and do not reduce
inside the kernel, so the JavaScript string operations are modelled by
structural recursion over the character list instead. -/

/-- `s.split(sep)` for a single-character separator, JavaScript semantics
(`"".split('/') = [""]`, leading separator yields a leading `""`). -/
def splitChar (sep : Char) : List Char → List (List Char)
  | [] => [[]]
  | c :: rest =>
      match splitChar sep rest with
      | [] => [[c]]
      | seg :: segs =>
          if c = sep then [] :: seg :: segs else (c :: seg) :: segs

/-- `method.toUpperCase()` (ASCII). -/
def jsToUpper (s : String) : String :=
  String.mk (s.data.map Char.toUpper)

/-- `name.toLowerCase()` (ASCII). -/
def jsToLower (s : String) : String :=
  String.mk (s.data.map Char.toLower)

/-- `path.startsWith(prefix)`. -/
def jsStartsWith (s pre : String) : Bool :=
  pre.data.isPrefixOf s.data

/-! ## File-journal backing (`src/storage/lowdb.adapter.ts`)

The LowDB state is the in-memory `db.data.entries` array, in push order.
`generateId()` and `Date.now()` are passed in as `newId` and `nowMs`. -/

namespace LowDB

/-- `LowDBStorage.save`: push a fresh entry onto the journal and return it. -/
def save (entries : List RecordedEntry) (newId : String) (nowMs : Int)
    (request : RequestRecord) (response : ResponseRecord) :
    List RecordedEntry × RecordedEntry :=
  let entry : RecordedEntry :=
    { id := newId, request := request, response := response, createdAt := nowMs }
  (entries ++ [entry], entry)

/-- `LowDBStorage.find`: `entries.find(e => e.request.method === request.method
&& e.request.path === request.path)` — the first match in array order. -/
def find (entries : List RecordedEntry) (request : RequestRecord) :
    Option RecordedEntry :=
  entries.find? fun e =>
    e.request.method == request.method && e.request.path == request.path

/-- `LowDBStorage.findById`: first entry whose `id` matches. -/
def findById (entries : List RecordedEntry) (id : String) : Option RecordedEntry :=
  entries.find? fun e => e.id == id

/-- `LowDBStorage.list`: `[...db.data.entries]` — a copy in array order. -/
def list (entries : List RecordedEntry) : List RecordedEntry :=
  entries

/-- `LowDBStorage.count`: length of the entries array. -/
def count (entries : List RecordedEntry) : Nat :=
  entries.length

end LowDB

/-! ## Embedded relational backing (`src/storage/sqlite.adapter.ts`)

The table is a list of rows in `rowid` (insertion) order.  Columns that hold
`JSON.stringify`-ed TEXT are modelled by the parsed value itself (the
stringify/parse round trip on a JSON tree is the identity); a body column
stores SQL `NULL` (here `none`) when the record had no body. -/

/-- One row of the `entries` table (interface `SQLiteRow`). -/
structure SQLiteRow where
  id : String
  request_method : String
  request_url : String
  request_path : String
  request_query : List (String × String)
  request_headers : List (String × String)
  request_body : Option Json
  request_timestamp : Int
  response_status : Int
  response_headers : List (String × String)
  response_body : Option Json
  response_timestamp : Int
  created_at : Int
deriving DecidableEq

namespace SQLite

/-- `SQLiteStorage.save`: INSERT a row built from the request/response pair and
return the constructed entry.  `request.body !== undefined ?
JSON.stringify(request.body) : null` becomes the `Option` passed through. -/
def save (table : List SQLiteRow) (newId : String) (nowMs : Int)
    (request : RequestRecord) (response : ResponseRecord) :
    List SQLiteRow × RecordedEntry :=
  let entry : RecordedEntry :=
    { id := newId, request := request, response := response, createdAt := nowMs }
  let row : SQLiteRow :=
    { id := newId
      request_method := request.method
      request_url := request.url
      request_path := request.path
      request_query := request.query
      request_headers := request.headers
      request_body := request.body
      request_timestamp := request.timestamp
      response_status := response.status
      response_headers := response.headers
      response_body := response.body
      response_timestamp := response.timestamp
      created_at := nowMs }
  (table ++ [row], entry)

/-- `SQLiteStorage.rowToEntry`.  Note the source sets the reconstructed
request's `id` to `row.id` — the entry id — not to the id the original
request carried. -/
def rowToEntry (row : SQLiteRow) : RecordedEntry :=
  { id := row.id
    request :=
      { id := row.id
        method := row.request_method
        url := row.request_url
        path := row.request_path
        query := row.request_query
        headers := row.request_headers
        body := row.request_body
        timestamp := row.request_timestamp }
    response :=
      { status := row.response_status
        headers := row.response_headers
        body := row.response_body
        timestamp := row.response_timestamp }
    createdAt := row.created_at }

/-- Row satisfying the `WHERE request_method = ? AND request_path = ?` clause. -/
def rowMatches (request : RequestRecord) (row : SQLiteRow) : Bool :=
  row.request_method == request.method && row.request_path == request.path

/-- One step of the `ORDER BY created_at DESC, rowid DESC LIMIT 1`
selection: keep the later row whenever its `created_at` is at least the
current best (so a tie goes to the larger rowid). -/
def maxCreatedStep (best : Option SQLiteRow) (row : SQLiteRow) :
    Option SQLiteRow :=
  match best with
  | none => some row
  | some b => if b.created_at ≤ row.created_at then some row else some b

/-- `ORDER BY created_at DESC, rowid DESC LIMIT 1` over a list in rowid order:
the last row among those with maximal `created_at`. -/
def pickMostRecent (rows : List SQLiteRow) : Option SQLiteRow :=
  rows.foldl maxCreatedStep none

/-- `SQLiteStorage.find`. -/
def find (table : List SQLiteRow) (request : RequestRecord) :
    Option RecordedEntry :=
  (pickMostRecent (table.filter (rowMatches request))).map rowToEntry

/-- `SQLiteStorage.findById`: `SELECT * FROM entries WHERE id = ?` (first
matching row; `id` is the primary key). -/
def findById (table : List SQLiteRow) (id : String) : Option RecordedEntry :=
  (table.find? fun row => row.id == id).map rowToEntry

/-- Stable insertion keeping `created_at` non-increasing. -/
def insertByCreatedDesc (row : SQLiteRow) : List SQLiteRow → List SQLiteRow
  | [] => [row]
  | r :: rs =>
      if r.created_at ≤ row.created_at then row :: r :: rs
      else r :: insertByCreatedDesc row rs

/-- `ORDER BY created_at DESC` over the table, modelled as a stable sort on
`created_at` descending (SQL fixes only the `created_at` order; this model
keeps rowid order inside a tie group). -/
def sortByCreatedDesc : List SQLiteRow → List SQLiteRow
  | [] => []
  | r :: rs => insertByCreatedDesc r (sortByCreatedDesc rs)

/-- `SQLiteStorage.list`. -/
def list (table : List SQLiteRow) : List RecordedEntry :=
  (sortByCreatedDesc table).map rowToEntry

/-- `SQLiteStorage.count`: `SELECT COUNT(*)`. -/
def count (table : List SQLiteRow) : Nat :=
  table.length

end SQLite

/-! ## Request matcher (`src/generators/faker.service.ts`, `RequestMatcher`)

Scores are JavaScript numbers; the arithmetic here is over `ℚ`.  Division by
zero in `ℚ` yields `0` where JavaScript would yield `NaN` (the `0/0` case can
only arise for two distinct paths both of whose segment lists are empty; the
claims under proof stay away from it). -/

/-- `MatchingStrategy` from `src/types/index.ts`. -/
inductive MatchingStrategy where
  | exact
  | smart
  | fuzzy
deriving DecidableEq

namespace RequestMatcher

/-- ASCII hexadecimal digit, as matched by `[0-9a-f]` with the `i` flag. -/
def isHexChar (c : Char) : Bool :=
  c.isDigit || ('a' ≤ c.toLower && c.toLower ≤ 'f')

/-- Character class `[a-zA-Z0-9_-]`. -/
def isIdChar (c : Char) : Bool :=
  c.isAlpha || c.isDigit || c == '_' || c == '-'

/-- Canonical UUID shape `^[0-9a-f]{8}-[0-9a-f]{4}-[0-9a-f]{4}-[0-9a-f]{4}-[0-9a-f]{12}$`
(case-insensitive): 36 characters with dashes at offsets 8, 13, 18, 23 and
hex digits everywhere else. -/
def isUuid (s : String) : Bool :=
  s.length == 36 &&
    (List.range 36).all fun i =>
      let c := s.data.getD i ' '
      if i == 8 || i == 13 || i == 18 || i == 23 then c == '-' else isHexChar c

/-- `RequestMatcher.looksLikeId`: all-digits, canonical UUID, 24 hex
characters, or a 21-character `[a-zA-Z0-9_-]` token. -/
def looksLikeId (value : String) : Bool :=
  (!value.isEmpty && value.data.all Char.isDigit) ||
  isUuid value ||
  (value.length == 24 && value.data.all isHexChar) ||
  (value.length == 21 && value.data.all isIdChar)

/-- `path.split('/').filter(Boolean)`: the non-empty `/`-separated segments. -/
def pathSegments (path : String) : List String :=
  ((splitChar '/' path.data).map String.mk).filter fun s => !s.isEmpty

/-- Result of `RequestMatcher.matchPath` (the source field `matches` is a
reserved word here, hence `isMatch`). -/
structure PathMatch where
  isMatch : Bool
  score : ℚ
deriving DecidableEq

/-- `RequestMatcher.matchPath`. -/
def matchPath (requestPath recordedPath : String) (strategy : MatchingStrategy) :
    PathMatch :=
  if requestPath = recordedPath then
    { isMatch := true, score := 100 }
  else if strategy = .fuzzy then
    let reqSegments := pathSegments requestPath
    let recSegments := pathSegments recordedPath
    if reqSegments.length ≠ recSegments.length then
      { isMatch := false, score := 0 }
    else
      let matchedSegments :=
        ((List.range reqSegments.length).filter fun i =>
          reqSegments.getD i "" == recSegments.getD i "" ||
            looksLikeId (reqSegments.getD i "")).length
      { isMatch := matchedSegments == reqSegments.length
        score := ((matchedSegments : ℚ) / (reqSegments.length : ℚ)) * 80 }
  else
    let reqSegments := pathSegments requestPath
    let recSegments := pathSegments recordedPath
    if reqSegments.length ≠ recSegments.length then
      { isMatch := false, score := 0 }
    else if (List.range reqSegments.length).all fun i =>
        reqSegments.getD i "" == recSegments.getD i "" ||
          (looksLikeId (reqSegments.getD i "") &&
            looksLikeId (recSegments.getD i "")) then
      { isMatch := true, score := 90 }
    else
      { isMatch := false, score := 0 }

/-- Value of `key` in a JavaScript string map (`map[key]`, `undefined` when
absent). -/
def lookupStr (m : List (String × String)) (key : String) : Option String :=
  (m.find? fun kv => kv.1 == key).map Prod.snd

/-- `RequestMatcher.matchQueryParams` with the configured
`ignoredQueryParams` set. -/
def matchQueryParams (ignoredQueryParams : List String)
    (requestQuery recordedQuery : List (String × String)) : ℚ :=
  let reqKeys := (requestQuery.map Prod.fst).filter fun k =>
    !ignoredQueryParams.contains k
  let recKeys := (recordedQuery.map Prod.fst).filter fun k =>
    !ignoredQueryParams.contains k
  if reqKeys.isEmpty && recKeys.isEmpty then 0
  else
    let totalKeys := (reqKeys ++ recKeys).dedup.length
    let matchedCount := (reqKeys.filter fun k =>
      lookupStr requestQuery k == lookupStr recordedQuery k).length
    ((matchedCount : ℚ) / (totalKeys : ℚ)) * 50

/-- `RequestMatcher.matchHeaders`: drop ignored header names, lower-case the
rest, then count keys of the request side whose values coincide, over the
union of both key sets, scaled to 30. -/
def matchHeaders (ignoredHeaders : List String)
    (requestHeaders recordedHeaders : List (String × String)) : ℚ :=
  let filterHeaders := fun (headers : List (String × String)) =>
    headers.filterMap fun kv =>
      if ignoredHeaders.contains (jsToLower kv.1) then none
      else some (jsToLower kv.1, kv.2)
  let reqHeaders := filterHeaders requestHeaders
  let recHeaders := filterHeaders recordedHeaders
  let reqKeys := reqHeaders.map Prod.fst
  let recKeys := recHeaders.map Prod.fst
  if reqKeys.isEmpty && recKeys.isEmpty then 0
  else
    let matchedCount := (reqKeys.filter fun k =>
      lookupStr reqHeaders k == lookupStr recHeaders k).length
    let totalKeys := (reqKeys ++ recKeys).dedup.length
    ((matchedCount : ℚ) / (totalKeys : ℚ)) * 30

/-- `typeof v === 'object' && v !== null` for a parsed JSON value: arrays and
objects qualify, `null` is excluded by the explicit null check. -/
def isNonNullObjectType : Json → Bool
  | .arr _ => true
  | .obj _ => true
  | _ => false

/-- `Object.keys` of a parsed JSON value of object type: field names of an
object, decimal indices of an array. -/
def topLevelKeys : Json → List String
  | .obj fields => fields.map Prod.fst
  | .arr elems => (List.range elems.length).map toString
  | _ => []

/-- `RequestMatcher.matchBody`.  The `JSON.stringify` comparison of two
present bodies is structural equality of the parsed trees. -/
def matchBody (requestBody recordedBody : Option Json) : ℚ :=
  match requestBody, recordedBody with
  | none, none => 0
  | none, some _ => 0
  | some _, none => 0
  | some rb, some cb =>
      if rb = cb then 50
      else if isNonNullObjectType rb && isNonNullObjectType cb then
        let reqKeys := topLevelKeys rb
        let recKeys := topLevelKeys cb
        let commonKeys := reqKeys.filter fun k => recKeys.contains k
        if commonKeys.length > 0 then
          ((commonKeys.length : ℚ) /
            ((max reqKeys.length recKeys.length : ℕ) : ℚ)) * 30
        else 0
      else 0

/-- Matcher configuration after the `RequestMatcher` constructor ran: the
strategy plus the two ignore sets (header names already lower-cased). -/
structure MatcherConfig where
  strategy : MatchingStrategy
  ignoredHeaders : List String
  ignoredQueryParams : List String

/-- `MatchResult` from `src/generators/faker.service.ts`. -/
structure MatchResult where
  entry : RecordedEntry
  score : ℚ
  matchedBy : List String

/-- `RequestMatcher.calculateMatch`: method gate (+100), strategy-dependent
path score, query score, header score (smart/fuzzy), body score for
POST/PUT/PATCH. -/
def calculateMatch (cfg : MatcherConfig) (request : RequestRecord)
    (entry : RecordedEntry) : Option MatchResult :=
  let recorded := entry.request
  if request.method ≠ recorded.method then none
  else
    let afterPath : Option (ℚ × List String) :=
      if cfg.strategy = .exact then
        if request.path ≠ recorded.path then none
        else some (200, ["method", "path"])
      else
        let pathMatch := matchPath request.path recorded.path cfg.strategy
        if !pathMatch.isMatch then none
        else some (100 + pathMatch.score, ["method", "path"])
    match afterPath with
    | none => none
    | some (score0, matched0) =>
        let queryScore := matchQueryParams cfg.ignoredQueryParams
          request.query recorded.query
        let (score1, matched1) :=
          if queryScore > 0 then (score0 + queryScore, matched0 ++ ["query"])
          else (score0, matched0)
        let (score2, matched2) :=
          if cfg.strategy = .smart ∨ cfg.strategy = .fuzzy then
            let headerScore := matchHeaders cfg.ignoredHeaders
              request.headers recorded.headers
            if headerScore > 0 then (score1 + headerScore, matched1 ++ ["headers"])
            else (score1, matched1)
          else (score1, matched1)
        let (score3, matched3) :=
          if ["POST", "PUT", "PATCH"].contains request.method then
            let bodyScore := matchBody request.body recorded.body
            if bodyScore > 0 then (score2 + bodyScore, matched2 ++ ["body"])
            else (score2, matched2)
          else (score2, matched2)
        some { entry := entry, score := score3, matchedBy := matched3 }

end RequestMatcher

/-! ## Path patterns

`Interceptor.pathToRegex` escapes every regex metacharacter, turns `:name`
into a single-segment capture `([^/]+)` and a trailing `/*` into `/.*`; the
chaos matchers (`LatencySimulator.matchPath`, `ErrorInjector.matchPath`)
escape, then turn every escaped `*` into `.*` (their `:name` rewrite looks
for a backslash before the colon, which the escape step never produces, so
`:name` stays literal there).  The compiled, anchored regexes are modelled
by a token list and a backtracking matcher. -/

/-- One token of a compiled path pattern: a literal character, a
single-segment wildcard `[^/]+`, or a free wildcard `.*`. -/
inductive PatTok where
  | lit (c : Char)
  | seg
  | any
deriving DecidableEq

/-- The suffixes of `s` reachable by consuming one or more non-`/`
characters — the ways `[^/]+` can split off a prefix. -/
def segDrops : List Char → List (List Char)
  | [] => []
  | c :: s => if c = '/' then [] else s :: segDrops s

/-- Anchored matching of a token list against a character list: `.*` consumes
any suffix, `[^/]+` consumes a non-empty run of non-`/` characters — the
standard existential semantics of the compiled regex. -/
def patMatch : List PatTok → List Char → Bool
  | [], s => s.isEmpty
  | .lit _ :: _, [] => false
  | .lit c :: ts, c' :: s => c == c' && patMatch ts s
  | .any :: ts, s => s.tails.any fun s' => patMatch ts s'
  | .seg :: ts, s => (segDrops s).any fun s' => patMatch ts s'

/-- Word character `\w`, i.e. `[A-Za-z0-9_]`. -/
def isWordChar (c : Char) : Bool :=
  c.isAlpha || c.isDigit || c == '_'

mutual

/-- Tokenization performed by `Interceptor.pathToRegex` (minus the `'*'`
whole-pattern special case, handled by the caller): `:name` (one or more
word characters) becomes a segment wildcard, a trailing `/*` becomes `/` and
a free wildcard, everything else is literal. -/
def interceptTokens : List Char → List PatTok
  | [] => []
  | '/' :: '*' :: [] => [.lit '/', .any]
  | ':' :: c :: rest =>
      if isWordChar c then .seg :: interceptSkipWord rest
      else .lit ':' :: interceptTokens (c :: rest)
  | c :: rest => .lit c :: interceptTokens rest
  termination_by cs => (cs.length, 0)

/-- Consume the remaining word characters of a `:name` capture, then resume
ordinary tokenization. -/
def interceptSkipWord : List Char → List PatTok
  | [] => []
  | c :: rest =>
      if isWordChar c then interceptSkipWord rest
      else interceptTokens (c :: rest)
  termination_by cs => (cs.length, 1)

end

/-- `rule.pathPattern.test(path)` for an interceptor rule compiled from
`path` by `pathToRegex`. -/
def interceptPatternTest (pattern path : String) : Bool :=
  if pattern = "*" then true
  else patMatch (interceptTokens pattern.data) path.data

/-- Tokenization used by the chaos matchers: every `*` is a free wildcard,
everything else (including `:name`) is literal. -/
def chaosTokens : List Char → List PatTok
  | [] => []
  | '*' :: rest => .any :: chaosTokens rest
  | c :: rest => .lit c :: chaosTokens rest

/-- `LatencySimulator.matchPath` / `ErrorInjector.matchPath`. -/
def chaosPatternMatch (pattern path : String) : Bool :=
  if pattern = "*" then true
  else if pattern = path then true
  else patMatch (chaosTokens pattern.data) path.data

/-! ## Interceptor registry (`src/generators/faker.service.ts`, `Interceptor`)

Rules live in a `Map` keyed by the generated id, so `Array.from(values())`
yields them in insertion order; the state is that list plus the id counter.
The handler payload (a response-transform callable) is carried opaquely. -/

/-- `InterceptRule`.  `pathPattern` is determined by `path` via
`pathToRegex`, so it is not stored separately; the matcher recompiles it. -/
structure InterceptRule where
  id : String
  method : String
  path : String
  handler : ResponseRecord → ResponseRecord
  priority : Int
  enabled : Bool

/-- `Interceptor` registry state. -/
structure InterceptorState where
  rules : List InterceptRule
  ruleCounter : Nat

namespace Interceptor

/-- `Interceptor.addRule`: assign `intercept-<n>`, upper-case the method,
default priority 0 and enabled true are supplied by the caller here. -/
def addRule (st : InterceptorState) (method path : String)
    (handler : ResponseRecord → ResponseRecord) (priority : Int)
    (enabled : Bool) : InterceptorState × String :=
  let counter := st.ruleCounter + 1
  let id := "intercept-" ++ toString counter
  ({ rules := st.rules ++
      [{ id := id, method := jsToUpper method, path := path, handler := handler
         priority := priority, enabled := enabled }]
     ruleCounter := counter }, id)

/-- The filter predicate of `Interceptor.findMatchingRule`. -/
def ruleMatches (method path : String) (rule : InterceptRule) : Bool :=
  rule.enabled && (rule.method == "*" || rule.method == jsToUpper method) &&
    interceptPatternTest rule.path path

/-- Stable insertion for a sort by `priority` descending: an element is
placed before the first strictly lower priority, after equal priorities. -/
def insertByPriorityDesc (rule : InterceptRule) :
    List InterceptRule → List InterceptRule
  | [] => [rule]
  | r :: rs =>
      if r.priority ≤ rule.priority then rule :: r :: rs
      else r :: insertByPriorityDesc rule rs

/-- `sort((a, b) => b.priority - a.priority)`: JavaScript's sort is stable,
modelled as stable insertion sort by `priority` descending. -/
def sortByPriorityDesc : List InterceptRule → List InterceptRule
  | [] => []
  | r :: rs => insertByPriorityDesc r (sortByPriorityDesc rs)

/-- `Interceptor.findMatchingRule`: filter enabled rules matching method and
path, sort by priority descending (stable), take the first. -/
def findMatchingRule (st : InterceptorState) (method path : String) :
    Option InterceptRule :=
  (sortByPriorityDesc (st.rules.filter (ruleMatches method path))).head?

end Interceptor

/-! ## Chaos layer (`src/chaos`: latency simulator, error injector, engine)

`Math.random()` draws are threaded as explicit rationals in `[0, 1)`. -/

/-- `LatencyConfig` from the latency simulator: `{min, max}` milliseconds. -/
structure LatencyConfig where
  min : Int
  max : Int
deriving DecidableEq

/-- `LatencyRule`. -/
structure LatencyRule where
  id : String
  method : String
  path : String
  latency : LatencyConfig
  enabled : Bool
deriving DecidableEq

/-- `LatencySimulator` state: optional default config, rules in insertion
order, and the id counter. -/
structure LatencyState where
  defaultLatency : Option LatencyConfig
  rules : List LatencyRule
  ruleCounter : Nat
deriving DecidableEq

namespace LatencySimulator

/-- `LatencySimulator.setDefault`: throws when `config.min > config.max`,
otherwise installs the config (or clears it on `null`). -/
def setDefault (st : LatencyState) (config : Option LatencyConfig) :
    Except String LatencyState :=
  match config with
  | some c =>
      if c.min > c.max then
        .error "Latency min must be less than or equal to max"
      else .ok { st with defaultLatency := some c }
  | none => .ok { st with defaultLatency := none }

/-- `LatencySimulator.addRule`: throws when `latency.min > latency.max`,
otherwise appends an enabled rule with id `latency-<n>` and the method
upper-cased. -/
def addRule (st : LatencyState) (method path : String)
    (latency : LatencyConfig) : Except String (LatencyState × String) :=
  if latency.min > latency.max then
    .error "Latency min must be less than or equal to max"
  else
    let counter := st.ruleCounter + 1
    let id := "latency-" ++ toString counter
    .ok ({ defaultLatency := st.defaultLatency
           rules := st.rules ++
             [{ id := id, method := jsToUpper method, path := path
                latency := latency, enabled := true }]
           ruleCounter := counter }, id)

/-- `LatencySimulator.findMatchingRule`: first enabled rule in insertion
order whose method is `*` or the upper-cased request method and whose path
pattern matches. -/
def findMatchingRule (st : LatencyState) (method path : String) :
    Option LatencyRule :=
  st.rules.find? fun rule =>
    rule.enabled && (rule.method == "*" || rule.method == jsToUpper method) &&
      chaosPatternMatch rule.path path

/-- `LatencySimulator.calculateDelay`:
`min === max ? min : Math.floor(rand * (max - min + 1)) + min`. -/
def calculateDelay (config : LatencyConfig) (rand : ℚ) : Int :=
  if config.min = config.max then config.min
  else ⌊rand * ((config.max : ℚ) - (config.min : ℚ) + 1)⌋ + config.min

/-- `LatencySimulator.getLatency`: matching rule first, then the default,
else 0. -/
def getLatency (st : LatencyState) (method path : String) (rand : ℚ) : Int :=
  match findMatchingRule st method path with
  | some rule => calculateDelay rule.latency rand
  | none =>
      match st.defaultLatency with
      | some d => calculateDelay d rand
      | none => 0

end LatencySimulator

/-- `ErrorConfig` of the error injector.  The fields are required in this
model, so the `??` fallbacks of `validateConfig` never fire. -/
structure ErrorConfig where
  rate : ℚ
  status : Int
  message : String
  details : Option (List (String × Json))
deriving DecidableEq

/-- `ErrorRule`. -/
structure ErrorRule where
  id : String
  method : String
  path : String
  error : ErrorConfig
  enabled : Bool
deriving DecidableEq

/-- `ErrorInjector` state. -/
structure ErrorState where
  defaultError : Option ErrorConfig
  rules : List ErrorRule
  ruleCounter : Nat
deriving DecidableEq

/-- `InjectedError`: status plus the synthetic body
`{error, message, injected: true, details?}`. -/
structure InjectedError where
  status : Int
  error : String
  message : String
  details : Option (List (String × Json))
deriving DecidableEq

namespace ErrorInjector

/-- `ErrorInjector.validateConfig`: rejects a rate outside `[0, 100]` or a
status outside `[400, 599]`. -/
def validateConfig (config : ErrorConfig) : Except String ErrorConfig :=
  if config.rate < 0 ∨ config.rate > 100 then
    .error "Error rate must be between 0 and 100"
  else if config.status < 400 ∨ config.status > 599 then
    .error "Error status must be between 400 and 599"
  else .ok config

/-- `ErrorInjector.setDefault`. -/
def setDefault (st : ErrorState) (config : Option ErrorConfig) :
    Except String ErrorState :=
  match config with
  | some c =>
      match validateConfig c with
      | .error e => .error e
      | .ok c' => .ok { st with defaultError := some c' }
  | none => .ok { st with defaultError := none }

/-- `ErrorInjector.addRule`. -/
def addRule (st : ErrorState) (method path : String) (error : ErrorConfig) :
    Except String (ErrorState × String) :=
  match validateConfig error with
  | .error e => .error e
  | .ok normalized =>
      let counter := st.ruleCounter + 1
      let id := "error-" ++ toString counter
      .ok ({ defaultError := st.defaultError
             rules := st.rules ++
               [{ id := id, method := jsToUpper method, path := path
                  error := normalized, enabled := true }]
             ruleCounter := counter }, id)

/-- `ErrorInjector.findMatchingRule`. -/
def findMatchingRule (st : ErrorState) (method path : String) :
    Option ErrorRule :=
  st.rules.find? fun rule =>
    rule.enabled && (rule.method == "*" || rule.method == jsToUpper method) &&
      chaosPatternMatch rule.path path

/-- `ErrorInjector.shouldTrigger` with its `Math.random()` draw. -/
def shouldTrigger (rate : ℚ) (rand : ℚ) : Bool :=
  if rate = 0 then false
  else if rate = 100 then true
  else rand * 100 < rate

/-- `ErrorInjector.getStatusText`: the standard reason phrases, `"Error"`
for anything else. -/
def getStatusText (status : Int) : String :=
  if status = 400 then "Bad Request"
  else if status = 401 then "Unauthorized"
  else if status = 403 then "Forbidden"
  else if status = 404 then "Not Found"
  else if status = 408 then "Request Timeout"
  else if status = 429 then "Too Many Requests"
  else if status = 500 then "Internal Server Error"
  else if status = 502 then "Bad Gateway"
  else if status = 503 then "Service Unavailable"
  else if status = 504 then "Gateway Timeout"
  else "Error"

/-- `ErrorInjector.createError`. -/
def createError (config : ErrorConfig) : InjectedError :=
  { status := config.status
    error := getStatusText config.status
    message := config.message
    details := config.details }

/-- `ErrorInjector.shouldInjectError`: a matching rule that triggers wins;
otherwise the default config gets its own draw; otherwise no error.  Note a
matching rule that does not trigger still falls through to the default. -/
def shouldInjectError (st : ErrorState) (method path : String)
    (randRule randDefault : ℚ) : Option InjectedError :=
  match findMatchingRule st method path with
  | some rule =>
      if shouldTrigger rule.error.rate randRule then
        some (createError rule.error)
      else
        match st.defaultError with
        | some d =>
            if shouldTrigger d.rate randDefault then some (createError d)
            else none
        | none => none
  | none =>
      match st.defaultError with
      | some d =>
          if shouldTrigger d.rate randDefault then some (createError d)
          else none
      | none => none

end ErrorInjector

/-- The mutable counters of `ChaosEngine.stats`. -/
structure ChaosCounters where
  requestsProcessed : Nat
  errorsInjected : Nat
  totalLatencyAdded : Int
deriving DecidableEq

/-- `ChaosEngine` state. -/
structure ChaosState where
  enabled : Bool
  latency : LatencyState
  errors : ErrorState
  stats : ChaosCounters
deriving DecidableEq

/-- The snapshot returned by `ChaosEngine.getStats`. -/
structure ChaosStats where
  enabled : Bool
  requestsProcessed : Nat
  errorsInjected : Nat
  totalLatencyAdded : Int
  averageLatency : ℚ
deriving DecidableEq

namespace ChaosEngine

/-- `Math.round` on a non-negative JavaScript number: nearest integer,
halves rounding up. -/
def jsRound (q : ℚ) : Int :=
  ⌊q + 1 / 2⌋

/-- `ChaosEngine.getStats`: a snapshot of the counters, with
`averageLatency` the rounded mean `Math.round(total / processed)` when any
request was processed and `0` otherwise. -/
def getStats (st : ChaosState) : ChaosStats :=
  { enabled := st.enabled
    requestsProcessed := st.stats.requestsProcessed
    errorsInjected := st.stats.errorsInjected
    totalLatencyAdded := st.stats.totalLatencyAdded
    averageLatency :=
      if st.stats.requestsProcessed > 0 then
        (jsRound ((st.stats.totalLatencyAdded : ℚ) /
          (st.stats.requestsProcessed : ℚ)) : ℚ)
      else 0 }

/-- `ChaosEngine.middleware` body: when disabled pass through untouched;
otherwise count the request, add the drawn latency, and either emit the
injected error (counting it) or continue.  Returns the new state, the
applied delay, and the injected error if any. -/
def middleware (st : ChaosState) (method path : String)
    (randLatency randErrRule randErrDefault : ℚ) :
    ChaosState × Int × Option InjectedError :=
  if !st.enabled then (st, 0, none)
  else
    let delayed := LatencySimulator.getLatency st.latency method path randLatency
    let stats1 : ChaosCounters :=
      { requestsProcessed := st.stats.requestsProcessed + 1
        errorsInjected := st.stats.errorsInjected
        totalLatencyAdded := st.stats.totalLatencyAdded + delayed }
    match ErrorInjector.shouldInjectError st.errors method path
        randErrRule randErrDefault with
    | some err =>
        ({ st with stats :=
            { stats1 with errorsInjected := stats1.errorsInjected + 1 } },
          delayed, some err)
    | none => ({ st with stats := stats1 }, delayed, none)

end ChaosEngine

/-- The chaos gate installed by `ApiDouble.setupMiddleware`
(`src/core/server.ts`): requests whose path starts with the admin prefix
`/__` skip the chaos middleware entirely; all others run it. -/
def serverChaosGate (st : ChaosState) (method path : String)
    (randLatency randErrRule randErrDefault : ℚ) :
    ChaosState × Int × Option InjectedError :=
  if jsStartsWith path "/__" then (st, 0, none)
  else ChaosEngine.middleware st method path randLatency randErrRule randErrDefault


/-! ## Sample data for witnesses and counterexamples -/

/-- A fully armed chaos state: enabled, default latency, a catch-all latency
rule, and a 100% default error rate. -/
def armedChaosState : ChaosState :=
  { enabled := true
    latency :=
      { defaultLatency := some { min := 50, max := 50 }
        rules := [{ id := "latency-1", method := "*", path := "*"
                    latency := { min := 10, max := 20 }, enabled := true }]
        ruleCounter := 1 }
    errors :=
      { defaultError := some { rate := 100, status := 503
                               message := "chaos", details := none }
        rules := [], ruleCounter := 0 }
    stats := { requestsProcessed := 7, errorsInjected := 2
               totalLatencyAdded := 350 } }

/-- Chaos state with 3 requests processed and 100 ms of latency added. -/
def chaosStatsSample3 : ChaosState :=
  { enabled := true
    latency := { defaultLatency := none, rules := [], ruleCounter := 0 }
    errors := { defaultError := none, rules := [], ruleCounter := 0 }
    stats := { requestsProcessed := 3, errorsInjected := 0
               totalLatencyAdded := 100 } }

/-- Chaos state with 4 requests processed and 100 ms of latency added. -/
def chaosStatsSample4 : ChaosState :=
  { enabled := true
    latency := { defaultLatency := none, rules := [], ruleCounter := 0 }
    errors := { defaultError := none, rules := [], ruleCounter := 0 }
    stats := { requestsProcessed := 4, errorsInjected := 0
               totalLatencyAdded := 100 } }


/-- Sample request for the storage round-trip: note its client-assigned id
`"client-1"`. -/
def c1Request : RequestRecord :=
  { id := "client-1", method := "GET", url := "/api/users?x=1"
    path := "/api/users", query := [("x", "1")]
    headers := [("accept", "application/json")], body := none
    timestamp := 10 }

/-- Sample response for the storage round-trip. -/
def c1Response : ResponseRecord :=
  { status := 200, headers := [("content-type", "application/json")]
    body := some (.obj [("name", .str "Original")]), timestamp := 11 }

/-- Request used against the two same-route entries below. -/
def c2Request : RequestRecord :=
  { id := "r", method := "GET", url := "/api/data", path := "/api/data"
    query := [], headers := [], body := none, timestamp := 0 }

/-- Older recorded entry for `GET /api/data` (createdAt 1). -/
def c2EntryOld : RecordedEntry :=
  { id := "1", request := { c2Request with id := "a" }
    response := { status := 200, headers := [], body := none, timestamp := 0 }
    createdAt := 1 }

/-- Newer recorded entry for `GET /api/data` (createdAt 2). -/
def c2EntryNew : RecordedEntry :=
  { id := "2", request := { c2Request with id := "b" }
    response := { status := 201, headers := [], body := none, timestamp := 0 }
    createdAt := 2 }

/-- Older SQLite row for `GET /api/data` (created_at 1). -/
def c2RowOld : SQLiteRow :=
  { id := "1", request_method := "GET", request_url := "/api/data"
    request_path := "/api/data", request_query := [], request_headers := []
    request_body := none, request_timestamp := 0, response_status := 200
    response_headers := [], response_body := none, response_timestamp := 0
    created_at := 1 }

/-- Newer SQLite row for `GET /api/data` (created_at 2). -/
def c2RowNew : SQLiteRow :=
  { id := "2", request_method := "GET", request_url := "/api/data"
    request_path := "/api/data", request_query := [], request_headers := []
    request_body := none, request_timestamp := 0, response_status := 201
    response_headers := [], response_body := none, response_timestamp := 0
    created_at := 2 }

/-- Entry created first (createdAt 1), for the list-order claim. -/
def c3EntryOld : RecordedEntry :=
  { id := "1"
    request := { id := "x", method := "GET", url := "/a", path := "/a"
                 query := [], headers := [], body := none, timestamp := 0 }
    response := { status := 200, headers := [], body := none, timestamp := 0 }
    createdAt := 1 }

/-- Entry created second (createdAt 2), for the list-order claim. -/
def c3EntryNew : RecordedEntry :=
  { id := "2"
    request := { id := "y", method := "GET", url := "/b", path := "/b"
                 query := [], headers := [], body := none, timestamp := 0 }
    response := { status := 200, headers := [], body := none, timestamp := 0 }
    createdAt := 2 }

/-- Interceptor rule with priority 1, matching every method and path. -/
def c8RuleLow : InterceptRule :=
  { id := "intercept-1", method := "*", path := "*", handler := id
    priority := 1, enabled := true }

/-- Interceptor rule with priority 5, matching every method and path,
inserted after `c8RuleLow`. -/
def c8RuleHigh : InterceptRule :=
  { id := "intercept-2", method := "*", path := "*", handler := id
    priority := 5, enabled := true }

/-! # Claim theorems -/

/-! ## Helper lemmas -/

/-- `Array.prototype.find` equals the head of the filtered list. -/
theorem find?_eq_head?_filter {α} (p : α → Bool) (l : List α) :
    l.find? p = (l.filter p).head? := by
  induction l with
  | nil => rfl
  | cons a l ih =>
      cases h : p a
      · rw [List.find?_cons_of_neg _ (by simp [h]),
          List.filter_cons_of_neg (by simp [h]), ih]
      · rw [List.find?_cons_of_pos _ (by simp [h]),
          List.filter_cons_of_pos (by simp [h])]
        rfl

/-- Folding `maxCreatedStep` from a non-empty accumulator yields an element
of the accumulator or the list, at least as recent as both. -/
theorem foldl_maxCreatedStep_spec (rows : List SQLiteRow) :
    ∀ b r, rows.foldl SQLite.maxCreatedStep (some b) = some r →
      (r = b ∨ r ∈ rows) ∧ b.created_at ≤ r.created_at ∧
        ∀ x ∈ rows, x.created_at ≤ r.created_at := by
  induction rows with
  | nil =>
      intro b r h
      simp only [List.foldl_nil, Option.some.injEq] at h
      subst h
      exact ⟨Or.inl rfl, le_refl _, by simp⟩
  | cons x rest ih =>
      intro b r h
      rw [List.foldl_cons] at h
      by_cases hbx : b.created_at ≤ x.created_at
      · rw [show SQLite.maxCreatedStep (some b) x = some x by
          simp [SQLite.maxCreatedStep, hbx]] at h
        obtain ⟨hmem, hle, hall⟩ := ih x r h
        refine ⟨?_, ?_, ?_⟩
        · rcases hmem with hm | hm
          · exact Or.inr (by simp [hm])
          · exact Or.inr (List.mem_cons_of_mem _ hm)
        · exact hbx.trans hle
        · intro y hy
          rcases List.mem_cons.mp hy with hy | hy
          · subst hy; exact hle
          · exact hall y hy
      · rw [show SQLite.maxCreatedStep (some b) x = some b by
          simp [SQLite.maxCreatedStep, hbx]] at h
        obtain ⟨hmem, hle, hall⟩ := ih b r h
        refine ⟨?_, hle, ?_⟩
        · rcases hmem with hm | hm
          · exact Or.inl hm
          · exact Or.inr (List.mem_cons_of_mem _ hm)
        · intro y hy
          rcases List.mem_cons.mp hy with hy | hy
          · subst hy
            exact (lt_of_lt_of_le (lt_of_not_le hbx) hle).le
          · exact hall y hy

/-- Folding `maxCreatedStep` from a non-empty accumulator never loses it. -/
theorem foldl_maxCreatedStep_isSome (rows : List SQLiteRow) :
    ∀ b, ∃ r, rows.foldl SQLite.maxCreatedStep (some b) = some r := by
  induction rows with
  | nil => intro b; exact ⟨b, rfl⟩
  | cons x rest ih =>
      intro b
      rw [List.foldl_cons]
      by_cases hbx : b.created_at ≤ x.created_at
      · rw [show SQLite.maxCreatedStep (some b) x = some x by
          simp [SQLite.maxCreatedStep, hbx]]
        exact ih x
      · rw [show SQLite.maxCreatedStep (some b) x = some b by
          simp [SQLite.maxCreatedStep, hbx]]
        exact ih b

/-- `pickMostRecent` returns `none` exactly on the empty row set. -/
theorem pickMostRecent_eq_none_iff (rows : List SQLiteRow) :
    SQLite.pickMostRecent rows = none ↔ rows = [] := by
  cases rows with
  | nil => simp [SQLite.pickMostRecent]
  | cons x rest =>
      simp only [SQLite.pickMostRecent, List.foldl_cons]
      rw [show SQLite.maxCreatedStep none x = some x from rfl]
      obtain ⟨r, hr⟩ := foldl_maxCreatedStep_isSome rest x
      rw [hr]
      simp

/-- A row selected by `pickMostRecent` belongs to the set and has maximal
`created_at`. -/
theorem pickMostRecent_spec (rows : List SQLiteRow) (r : SQLiteRow)
    (h : SQLite.pickMostRecent rows = some r) :
    r ∈ rows ∧ ∀ x ∈ rows, x.created_at ≤ r.created_at := by
  cases rows with
  | nil => simp [SQLite.pickMostRecent] at h
  | cons x rest =>
      rw [SQLite.pickMostRecent, List.foldl_cons,
        show SQLite.maxCreatedStep none x = some x from rfl] at h
      obtain ⟨hmem, hle, hall⟩ := foldl_maxCreatedStep_spec rest x r h
      refine ⟨?_, ?_⟩
      · rcases hmem with hm | hm
        · simp [hm]
        · exact List.mem_cons_of_mem _ hm
      · intro y hy
        rcases List.mem_cons.mp hy with hy | hy
        · subst hy; exact hle
        · exact hall y hy


/-! ## C9 — admin short-circuit -/

/-- C9: for every incoming request whose path begins with the admin prefix
`/__`, the chaos engine is never applied: the server's chaos gate returns the
chaos state unchanged (no stats increments), zero added latency, and no
injected error, regardless of enablement, rules, or defaults. -/
theorem admin_short_circuit_no_chaos (st : ChaosState) (method path : String)
    (randLatency randErrRule randErrDefault : ℚ)
    (h : jsStartsWith path "/__" = true) :
    serverChaosGate st method path randLatency randErrRule randErrDefault =
      (st, 0, none) := by
  simp [serverChaosGate, h]

/-- C9 witness: `GET /__health` against a fully armed chaos engine leaves the
state, the latency, and the error outcome untouched. -/
theorem admin_short_circuit_no_chaos_witness :
    jsStartsWith "/__health" "/__" = true ∧
    serverChaosGate armedChaosState "GET" "/__health" 0 0 0 =
      (armedChaosState, 0, none) :=
  ⟨by decide,
    admin_short_circuit_no_chaos armedChaosState "GET" "/__health" 0 0 0
      (by decide)⟩

/-! ## C5 — id generation under rapid calls -/

/-- C5 counterexample: `generateId` is a pure function of the millisecond
clock reading and the random base-36 suffix, so two distinct calls made in
the same millisecond whose 7-character random draws coincide return the
identical token — distinctness is not guaranteed. -/
theorem generateId_collision :
    generateId 1700000000000 "k3j9q2z" = generateId 1700000000000 "k3j9q2z" ∧
    "k3j9q2z".length = 7 :=
  ⟨rfl, by decide⟩

/-- C5 amended: two calls within the same millisecond return distinct tokens
exactly when their random suffixes differ; uniqueness is therefore only
probabilistic (a suffix collision yields an identical token). -/
theorem generateId_distinct_iff_suffix (nowMs : Nat) (s1 s2 : String) :
    generateId nowMs s1 ≠ generateId nowMs s2 ↔ s1 ≠ s2 := by
  constructor
  · intro h hs
    exact h (by rw [hs])
  · intro hs h
    apply hs
    have hd := congrArg String.data h
    simp only [generateId, String.data_append] at hd
    have := List.append_cancel_left hd
    cases s1; cases s2; simp_all

/-! ## C6 — chaos mean -/

/-- C6 counterexample: with 3 requests processed and 100 ms total added
latency, `getStats` reports `averageLatency = Math.round(100/3) = 33`, which
is not the exact mean `100/3`. -/
theorem chaos_mean_not_exact :
    (ChaosEngine.getStats chaosStatsSample3).averageLatency ≠ (100 : ℚ) / 3 := by
  have h33 : ⌊(100 : ℚ) / 3 + 1 / 2⌋ = 33 := by
    rw [Int.floor_eq_iff]
    norm_num
  simp [ChaosEngine.getStats, chaosStatsSample3, ChaosEngine.jsRound, h33]
  norm_num

/-- C6 amended: when `requests_processed > 0`, the reported `averageLatency`
is `Math.round(total/processed)` — within 1/2 of the exact mean and equal to
it whenever `processed` divides `total` — and it is 0 when
`requests_processed = 0` (the exact-mean claim holds only up to rounding). -/
theorem chaos_mean_rounded (st : ChaosState) :
    (0 < st.stats.requestsProcessed →
      (ChaosEngine.getStats st).averageLatency =
        ((ChaosEngine.jsRound ((st.stats.totalLatencyAdded : ℚ) /
          (st.stats.requestsProcessed : ℚ))) : ℚ) ∧
      |(ChaosEngine.getStats st).averageLatency -
          (st.stats.totalLatencyAdded : ℚ) / (st.stats.requestsProcessed : ℚ)| ≤
        1 / 2 ∧
      ((st.stats.requestsProcessed : ℤ) ∣ st.stats.totalLatencyAdded →
        (ChaosEngine.getStats st).averageLatency =
          (st.stats.totalLatencyAdded : ℚ) / (st.stats.requestsProcessed : ℚ))) ∧
    (st.stats.requestsProcessed = 0 →
      (ChaosEngine.getStats st).averageLatency = 0) := by
  constructor
  · intro hpos
    have havg : (ChaosEngine.getStats st).averageLatency =
        ((ChaosEngine.jsRound ((st.stats.totalLatencyAdded : ℚ) /
          (st.stats.requestsProcessed : ℚ))) : ℚ) := by
      simp [ChaosEngine.getStats, hpos]
    refine ⟨havg, ?_, ?_⟩
    · rw [havg]
      set q : ℚ := (st.stats.totalLatencyAdded : ℚ) /
        (st.stats.requestsProcessed : ℚ) with hq
      have h1 : ((⌊q + 1/2⌋ : ℤ) : ℚ) ≤ q + 1/2 := Int.floor_le _
      have h2 : (q + 1/2) - 1 < ((⌊q + 1/2⌋ : ℤ) : ℚ) := Int.sub_one_lt_floor _
      rw [ChaosEngine.jsRound, abs_le]
      constructor <;> linarith
    · rintro ⟨k, hk⟩
      rw [havg]
      have hne : ((st.stats.requestsProcessed : ℚ)) ≠ 0 :=
        Nat.cast_ne_zero.mpr hpos.ne'
      have hqk : (st.stats.totalLatencyAdded : ℚ) /
          (st.stats.requestsProcessed : ℚ) = (k : ℚ) := by
        rw [hk]
        field_simp
      rw [hqk, ChaosEngine.jsRound, add_comm, Int.floor_add_int]
      norm_num
  · intro h0
    simp [ChaosEngine.getStats, h0]

/-- C6 witness: 4 requests and 100 ms total give an average of exactly
`100/4 = 25` (the divisible case, where rounding is exact). -/
theorem chaos_mean_rounded_witness :
    (ChaosEngine.getStats chaosStatsSample4).averageLatency = 25 := by
  have h := ((chaos_mean_rounded chaosStatsSample4).1
      (by norm_num [chaosStatsSample4])).2.2
    ⟨25, by norm_num [chaosStatsSample4]⟩
  rw [h]
  norm_num [chaosStatsSample4]



/-! ## C7 — latency config validation -/

/-- C7 counterexample: `setDefault` accepts and stores `{min: -5, max: -1}`,
a configuration with negative milliseconds that violates `0 ≤ min`; only
`min ≤ max` is checked, so the claimed rejection does not happen. -/
theorem latency_negative_config_accepted :
    LatencySimulator.setDefault
        { defaultLatency := none, rules := [], ruleCounter := 0 }
        (some { min := -5, max := -1 }) =
      .ok { defaultLatency := some { min := -5, max := -1 }, rules := []
            ruleCounter := 0 } ∧
    (-5 : ℤ) < 0 := by
  constructor
  · norm_num [LatencySimulator.setDefault]
  · norm_num

/-- C7 amended: the latency simulator validates only `min ≤ max`: a config
with `min > max` is rejected with an error by both `setDefault` and
`addRule` and never stored, while any config with `min ≤ max` (negative
values included) is accepted and stored verbatim; consequently every stored
config satisfies `min ≤ max`, but `0 ≤ min` is not enforced. -/
theorem latency_minmax_validation (st : LatencyState) (c : LatencyConfig)
    (method path : String) :
    (c.min > c.max →
      LatencySimulator.setDefault st (some c) =
        .error "Latency min must be less than or equal to max" ∧
      LatencySimulator.addRule st method path c =
        .error "Latency min must be less than or equal to max") ∧
    (c.min ≤ c.max →
      LatencySimulator.setDefault st (some c) =
        .ok { st with defaultLatency := some c } ∧
      LatencySimulator.addRule st method path c =
        .ok ({ defaultLatency := st.defaultLatency
               rules := st.rules ++
                 [{ id := "latency-" ++ toString (st.ruleCounter + 1)
                    method := jsToUpper method, path := path
                    latency := c, enabled := true }]
               ruleCounter := st.ruleCounter + 1 },
             "latency-" ++ toString (st.ruleCounter + 1))) ∧
    (∀ st' id, LatencySimulator.addRule st method path c = .ok (st', id) →
      (∀ r ∈ st.rules, r.latency.min ≤ r.latency.max) →
      ∀ r ∈ st'.rules, r.latency.min ≤ r.latency.max) := by
  refine ⟨fun hgt => ?_, fun hle => ?_, fun st' id hok hinv r hr => ?_⟩
  · constructor
    · simp [LatencySimulator.setDefault, hgt]
    · simp [LatencySimulator.addRule, hgt]
  · constructor
    · simp [LatencySimulator.setDefault, not_lt.mpr hle]
    · simp [LatencySimulator.addRule, not_lt.mpr hle]
  · by_cases hgt : c.min > c.max
    · simp [LatencySimulator.addRule, hgt] at hok
    · simp [LatencySimulator.addRule, hgt] at hok
      rw [← hok.1] at hr
      simp at hr
      rcases hr with hr | hr
      · exact hinv r hr
      · rw [hr]
        exact not_lt.mp hgt

/-- C7 witness: `{min: 0, max: 5}` is accepted by `setDefault` and `addRule`
on an empty simulator. -/
theorem latency_minmax_validation_witness :
    LatencySimulator.setDefault
        { defaultLatency := none, rules := [], ruleCounter := 0 }
        (some { min := 0, max := 5 }) =
      .ok { defaultLatency := some { min := 0, max := 5 }, rules := []
            ruleCounter := 0 } ∧
    LatencySimulator.addRule
        { defaultLatency := none, rules := [], ruleCounter := 0 }
        "get" "/api/users" { min := 0, max := 5 } =
      .ok ({ defaultLatency := none
             rules := [{ id := "latency-1", method := jsToUpper "get"
                         path := "/api/users"
                         latency := { min := 0, max := 5 }, enabled := true }]
             ruleCounter := 1 },
           "latency-1") :=
  (latency_minmax_validation
    { defaultLatency := none, rules := [], ruleCounter := 0 }
    { min := 0, max := 5 } "get" "/api/users").2.1 (by norm_num)

/-! ## C4 — matcher body contribution -/

/-- C4 counterexample: a POST request and a recorded POST both without a
body.  The two (absent) bodies are trivially deep-equal, yet `matchBody`
contributes 0, not the claimed 50: bodies must be *present* for the 50-point
branch to apply. -/
theorem match_body_absent_bodies_zero :
    (none : Option Json) = none ∧
    RequestMatcher.matchBody none none = 0 ∧
    RequestMatcher.matchBody none none ≠ 50 := by
  refine ⟨rfl, by simp [RequestMatcher.matchBody], ?_⟩
  norm_num [RequestMatcher.matchBody]

/-- C4 amended: for POST/PUT/PATCH requests the body dimension contributes:
0 whenever either body is absent (even when both are); for two present
bodies, 50 when they are deep-equal (identical JSON serialization); else,
when both are non-null values of JavaScript object type — JSON objects or
arrays, an array contributing its decimal indices as keys —
`(common top-level keys / max key count) · 30`; else 0. -/
theorem match_body_contribution (rb cb : Option Json) :
    ((rb = none ∨ cb = none) → RequestMatcher.matchBody rb cb = 0) ∧
    (∀ b b', rb = some b → cb = some b' → b = b' →
      RequestMatcher.matchBody rb cb = 50) ∧
    (∀ b b', rb = some b → cb = some b' → b ≠ b' →
      RequestMatcher.isNonNullObjectType b = true →
      RequestMatcher.isNonNullObjectType b' = true →
      RequestMatcher.matchBody rb cb =
        (((RequestMatcher.topLevelKeys b).filter fun k =>
            (RequestMatcher.topLevelKeys b').contains k).length : ℚ) /
          ((max (RequestMatcher.topLevelKeys b).length
            (RequestMatcher.topLevelKeys b').length : ℕ) : ℚ) * 30) ∧
    (∀ b b', rb = some b → cb = some b' → b ≠ b' →
      (RequestMatcher.isNonNullObjectType b = false ∨
        RequestMatcher.isNonNullObjectType b' = false) →
      RequestMatcher.matchBody rb cb = 0) := by
  refine ⟨fun h => ?_, fun b b' h1 h2 he => ?_, fun b b' h1 h2 hne ho1 ho2 => ?_,
    fun b b' h1 h2 hne ho => ?_⟩
  · rcases h with h | h
    · subst h
      cases cb <;> simp [RequestMatcher.matchBody]
    · subst h
      cases rb <;> simp [RequestMatcher.matchBody]
  · subst h1
    subst h2
    subst he
    simp [RequestMatcher.matchBody]
  · subst h1
    subst h2
    by_cases hpos : 0 < ((RequestMatcher.topLevelKeys b).filter fun k =>
        (RequestMatcher.topLevelKeys b').contains k).length
    · simp only [RequestMatcher.matchBody, if_neg hne, ho1, ho2, Bool.and_self,
        if_true, if_pos hpos]
    · have h0 : ((RequestMatcher.topLevelKeys b).filter fun k =>
          (RequestMatcher.topLevelKeys b').contains k).length = 0 :=
        Nat.eq_zero_of_not_pos hpos
      simp only [RequestMatcher.matchBody, if_neg hne, ho1, ho2, Bool.and_self,
        if_true, if_neg hpos, h0]
      norm_num
  · subst h1
    subst h2
    rcases ho with ho | ho <;> simp [RequestMatcher.matchBody, hne, ho]

/-- C4 witness: the arrays `["a"]` and `["b"]` are not deep-equal but are
both of object type with the single common index key `"0"`, so the body
dimension contributes `(1/1)·30 = 30` — not 0 as the claim would have it for
non-object bodies. -/
theorem match_body_contribution_witness :
    RequestMatcher.matchBody (some (.arr [.str "a"])) (some (.arr [.str "b"])) =
      30 := by
  have h := (match_body_contribution (some (.arr [.str "a"]))
      (some (.arr [.str "b"]))).2.2.1
    (.arr [.str "a"]) (.arr [.str "b"]) rfl rfl (by decide) (by decide) (by decide)
  rw [h]
  have hkeys : ((List.range 1).map toString : List String) = ["0"] := by decide
  simp [RequestMatcher.topLevelKeys, hkeys]



/-! ## C10 — fuzzy path matching consults only the request side -/

/-- C10: under the fuzzy strategy, once the exact-equality check has failed
and the two paths have equal, non-zero segment counts, a position counts as
matched exactly when the request segment equals the recorded one *or the
request segment alone is ID-like* (the recorded segment's ID-likeness is
never consulted), and the candidate matches — with path score exactly 80 —
precisely when every position is matched. -/
theorem fuzzy_path_request_side_only (p q : String) (hne : p ≠ q)
    (hlen : (RequestMatcher.pathSegments p).length =
      (RequestMatcher.pathSegments q).length)
    (hpos : 0 < (RequestMatcher.pathSegments p).length) :
    ((RequestMatcher.matchPath p q .fuzzy).isMatch = true ↔
      ∀ i (hi : i < (RequestMatcher.pathSegments p).length),
        (RequestMatcher.pathSegments p).get ⟨i, hi⟩ =
            (RequestMatcher.pathSegments q).get ⟨i, hlen ▸ hi⟩ ∨
          RequestMatcher.looksLikeId
            ((RequestMatcher.pathSegments p).get ⟨i, hi⟩) = true) ∧
    ((RequestMatcher.matchPath p q .fuzzy).isMatch = true →
      (RequestMatcher.matchPath p q .fuzzy).score = 80) := by
  set rs := RequestMatcher.pathSegments p with hrs
  set cs := RequestMatcher.pathSegments q with hcs
  have hmp : RequestMatcher.matchPath p q .fuzzy =
      { isMatch := (((List.range rs.length).filter fun i =>
            rs.getD i "" == cs.getD i "" ||
              RequestMatcher.looksLikeId (rs.getD i "")).length == rs.length)
        score := ((((List.range rs.length).filter fun i =>
            rs.getD i "" == cs.getD i "" ||
              RequestMatcher.looksLikeId (rs.getD i "")).length : ℚ) /
          (rs.length : ℚ)) * 80 } := by
    rw [RequestMatcher.matchPath]
    simp only [if_neg hne, reduceIte, ← hrs, ← hcs, if_neg (by omega : ¬rs.length ≠ cs.length)]
  have hcount : ((((List.range rs.length).filter fun i =>
        rs.getD i "" == cs.getD i "" ||
          RequestMatcher.looksLikeId (rs.getD i "")).length == rs.length) = true) ↔
      ∀ i (hi : i < rs.length),
        rs.get ⟨i, hi⟩ = cs.get ⟨i, hlen ▸ hi⟩ ∨
          RequestMatcher.looksLikeId (rs.get ⟨i, hi⟩) = true := by
    rw [beq_iff_eq]
    have hrange : (List.range rs.length).length = rs.length := List.length_range _
    constructor
    · intro h i hi
      have hall := List.filter_length_eq_length.mp (h.trans hrange.symm)
      have := hall i (List.mem_range.mpr hi)
      rw [List.getD_eq_getElem _ _ hi, List.getD_eq_getElem _ _ (hlen ▸ hi)] at this
      simpa [List.get_eq_getElem] using this
    · intro h
      refine (List.filter_length_eq_length.mpr ?_).trans hrange
      intro i hi
      have hi' := List.mem_range.mp hi
      have := h i hi'
      rw [List.getD_eq_getElem _ _ hi', List.getD_eq_getElem _ _ (hlen ▸ hi')]
      simpa [List.get_eq_getElem] using this
  constructor
  · rw [hmp]
    exact hcount
  · intro hm
    rw [hmp] at hm ⊢
    simp only at hm ⊢
    rw [beq_iff_eq] at hm
    rw [hm]
    have : ((rs.length : ℚ)) ≠ 0 := Nat.cast_ne_zero.mpr hpos.ne'
    field_simp

/-- C10 witness: the live path `/api/users/123` (final segment ID-like)
matches the recorded path `/api/users/hello` whose final segment is an
arbitrary non-ID word, with path score 80. -/
theorem fuzzy_path_request_side_only_witness :
    (RequestMatcher.matchPath "/api/users/123" "/api/users/hello" .fuzzy).isMatch
        = true ∧
    (RequestMatcher.matchPath "/api/users/123" "/api/users/hello" .fuzzy).score
        = 80 := by
  have hm : (RequestMatcher.matchPath "/api/users/123" "/api/users/hello"
      .fuzzy).isMatch = true := by decide
  exact ⟨hm,
    (fuzzy_path_request_side_only "/api/users/123" "/api/users/hello"
      (by decide) (by decide) (by decide)).2 hm⟩



/-! ## C1 — storage round-trip -/

/-- C1 counterexample: under the SQLite backing, `rowToEntry` rebuilds the
request with `id: row.id` — the entry id — so after saving a request whose
client-assigned id is `"client-1"` under entry id `"42-x"`, `findById`
returns a request different from the one saved (its id is now `"42-x"`). -/
theorem sqlite_round_trip_rewrites_request_id :
    (SQLite.findById (SQLite.save [] "42-x" 7 c1Request c1Response).1
        (SQLite.save [] "42-x" 7 c1Request c1Response).2.id).map
      RecordedEntry.request ≠ some c1Request := by
  decide

/-- C1 amended: after `entry = save(r, s)` with a fresh id, `findById
entry.id` returns under LowDB an entry whose request is `r` and response is
`s` exactly; under SQLite it returns the response `s` exactly and the
request `r` with every field preserved *except* `id`, which is replaced by
the entry's own id. -/
theorem storage_round_trip (entries : List RecordedEntry)
    (table : List SQLiteRow) (newId : String) (nowMs : Int)
    (r : RequestRecord) (s : ResponseRecord)
    (hfreshL : ∀ e ∈ entries, e.id ≠ newId)
    (hfreshS : ∀ row ∈ table, row.id ≠ newId) :
    LowDB.findById (LowDB.save entries newId nowMs r s).1 newId =
      some { id := newId, request := r, response := s, createdAt := nowMs } ∧
    SQLite.findById (SQLite.save table newId nowMs r s).1 newId =
      some { id := newId, request := { r with id := newId }, response := s
             createdAt := nowMs } := by
  constructor
  · rw [LowDB.findById, LowDB.save]
    rw [List.find?_append]
    have hnone : entries.find? (fun e => e.id == newId) = none := by
      rw [List.find?_eq_none]
      intro e he
      simp [hfreshL e he]
    rw [hnone]
    simp
  · rw [SQLite.findById, SQLite.save]
    rw [List.find?_append]
    have hnone : table.find? (fun row => row.id == newId) = none := by
      rw [List.find?_eq_none]
      intro row hrow
      simp [hfreshS row hrow]
    rw [hnone]
    simp [SQLite.rowToEntry]

/-- C1 witness: saving the sample pair into both empty backings and reading
back by the fresh id `"42-x"`. -/
theorem storage_round_trip_witness :
    LowDB.findById (LowDB.save [] "42-x" 7 c1Request c1Response).1 "42-x" =
      some { id := "42-x", request := c1Request, response := c1Response
             createdAt := 7 } ∧
    SQLite.findById (SQLite.save [] "42-x" 7 c1Request c1Response).1 "42-x" =
      some { id := "42-x", request := { c1Request with id := "42-x" }
             response := c1Response, createdAt := 7 } :=
  storage_round_trip [] [] "42-x" 7 c1Request c1Response
    (by simp) (by simp)

/-! ## C2 — find returns the most recent match -/

/-- C2 counterexample: with two recorded entries for `GET /api/data`
(createdAt 1 then 2, in insertion order), the LowDB `find` returns the
*first* — oldest — matching entry, although a strictly more recently created
matching entry exists. -/
theorem lowdb_find_returns_oldest :
    LowDB.find [c2EntryOld, c2EntryNew] c2Request = some c2EntryOld ∧
    c2EntryOld.createdAt < c2EntryNew.createdAt ∧
    (c2EntryNew.request.method == c2Request.method &&
      c2EntryNew.request.path == c2Request.path) = true := by
  decide

/-- C2 amended: the SQLite `find` returns `none` exactly when no row has the
request's method and path, and otherwise an entry built from a matching row
of maximal `created_at` (the SQL tie-break being the larger rowid); the
LowDB `find`, by contrast, returns the *first* matching entry in insertion
order — the oldest, not the most recently created. -/
theorem find_most_recent (entries : List RecordedEntry)
    (table : List SQLiteRow) (req : RequestRecord) :
    LowDB.find entries req =
      (entries.filter fun e =>
        e.request.method == req.method && e.request.path == req.path).head? ∧
    (SQLite.find table req = none ↔
      table.filter (SQLite.rowMatches req) = []) ∧
    (∀ e, SQLite.find table req = some e →
      ∃ row ∈ table.filter (SQLite.rowMatches req),
        e = SQLite.rowToEntry row ∧
        ∀ row' ∈ table.filter (SQLite.rowMatches req),
          row'.created_at ≤ row.created_at) := by
  refine ⟨?_, ?_, ?_⟩
  · rw [LowDB.find, find?_eq_head?_filter]
  · rw [SQLite.find]
    rw [Option.map_eq_none']
    exact (pickMostRecent_eq_none_iff _)
  · intro e he
    rw [SQLite.find] at he
    rcases hpick : SQLite.pickMostRecent (table.filter (SQLite.rowMatches req))
      with _ | row
    · rw [hpick] at he
      exact Option.noConfusion he
    · rw [hpick] at he
      have he' : SQLite.rowToEntry row = e := by
        simpa using he
      obtain ⟨hmem, hmax⟩ := pickMostRecent_spec _ _ hpick
      exact ⟨row, hmem, he'.symm, hmax⟩

/-- C2 witness: on concrete data, LowDB yields the older entry while SQLite
yields an entry built from the newer row, which dominates every match. -/
theorem find_most_recent_witness :
    LowDB.find [c2EntryOld, c2EntryNew] c2Request =
      ([c2EntryOld, c2EntryNew].filter fun e =>
        e.request.method == c2Request.method &&
          e.request.path == c2Request.path).head? ∧
    (∃ row ∈ [c2RowOld, c2RowNew].filter (SQLite.rowMatches c2Request),
      SQLite.rowToEntry c2RowNew = SQLite.rowToEntry row ∧
      ∀ row' ∈ [c2RowOld, c2RowNew].filter (SQLite.rowMatches c2Request),
        row'.created_at ≤ row.created_at) :=
  ⟨(find_most_recent [c2EntryOld, c2EntryNew] [c2RowOld, c2RowNew]
      c2Request).1,
   (find_most_recent [c2EntryOld, c2EntryNew] [c2RowOld, c2RowNew]
      c2Request).2.2 (SQLite.rowToEntry c2RowNew) (by decide)⟩


/-! ## C3 — list order -/

/-- Stable insertion produces a permutation of consing. -/
theorem insertByCreatedDesc_perm (row : SQLiteRow) (rows : List SQLiteRow) :
    (SQLite.insertByCreatedDesc row rows).Perm (row :: rows) := by
  induction rows with
  | nil => rfl
  | cons r rs ih =>
      rw [SQLite.insertByCreatedDesc]
      by_cases h : r.created_at ≤ row.created_at
      · rw [if_pos h]
      · rw [if_neg h]
        exact (ih.cons r).trans (List.Perm.swap row r rs)

/-- The modelled `ORDER BY created_at DESC` permutes the table. -/
theorem sortByCreatedDesc_perm (rows : List SQLiteRow) :
    (SQLite.sortByCreatedDesc rows).Perm rows := by
  induction rows with
  | nil => rfl
  | cons r rs ih =>
      exact (insertByCreatedDesc_perm r _).trans (ih.cons r)

/-- Stable insertion preserves the `created_at`-descending order. -/
theorem insertByCreatedDesc_pairwise (row : SQLiteRow) (rows : List SQLiteRow)
    (h : rows.Pairwise fun a b => b.created_at ≤ a.created_at) :
    (SQLite.insertByCreatedDesc row rows).Pairwise
      fun a b => b.created_at ≤ a.created_at := by
  induction rows with
  | nil => simp [SQLite.insertByCreatedDesc]
  | cons r rs ih =>
      rw [SQLite.insertByCreatedDesc]
      rw [List.pairwise_cons] at h
      by_cases hc : r.created_at ≤ row.created_at
      · rw [if_pos hc]
        rw [List.pairwise_cons]
        refine ⟨?_, List.pairwise_cons.mpr h⟩
        intro x hx
        rcases List.mem_cons.mp hx with hx | hx
        · subst hx; exact hc
        · exact (h.1 x hx).trans hc
      · rw [if_neg hc]
        rw [List.pairwise_cons]
        refine ⟨?_, ih h.2⟩
        intro x hx
        have hx' := (insertByCreatedDesc_perm row rs).mem_iff.mp hx
        rcases List.mem_cons.mp hx' with hx' | hx'
        · subst hx'; exact (lt_of_not_le hc).le
        · exact h.1 x hx'

/-- The modelled `ORDER BY created_at DESC` is `created_at`-descending. -/
theorem sortByCreatedDesc_pairwise (rows : List SQLiteRow) :
    (SQLite.sortByCreatedDesc rows).Pairwise
      fun a b => b.created_at ≤ a.created_at := by
  induction rows with
  | nil => simp [SQLite.sortByCreatedDesc]
  | cons r rs ih => exact insertByCreatedDesc_pairwise r _ ih

/-- C3 counterexample: a LowDB journal holding an older entry (createdAt 1)
before a newer one (createdAt 2) is returned by `list()` in that same
insertion order, which is not most-recently-created-first. -/
theorem lowdb_list_not_most_recent_first :
    LowDB.list [c3EntryOld, c3EntryNew] = [c3EntryOld, c3EntryNew] ∧
    c3EntryOld.createdAt < c3EntryNew.createdAt ∧
    ¬ (LowDB.list [c3EntryOld, c3EntryNew]).Pairwise
        (fun a b => b.createdAt ≤ a.createdAt) := by
  refine ⟨rfl, by decide, fun h => ?_⟩
  rw [LowDB.list, List.pairwise_cons] at h
  have := h.1 c3EntryNew (by simp)
  revert this
  decide

/-- C3 amended: the SQLite `list()` returns all entries (a permutation of
the table's rows, converted) in `createdAt`-descending order; the LowDB
`list()` returns the journal array unchanged — insertion order, oldest
first — with no sorting. -/
theorem list_order (entries : List RecordedEntry) (table : List SQLiteRow) :
    LowDB.list entries = entries ∧
    (SQLite.list table).Perm (table.map SQLite.rowToEntry) ∧
    (SQLite.list table).Pairwise fun a b => b.createdAt ≤ a.createdAt := by
  refine ⟨rfl, ?_, ?_⟩
  · exact (sortByCreatedDesc_perm table).map SQLite.rowToEntry
  · rw [SQLite.list, List.pairwise_map]
    exact sortByCreatedDesc_pairwise table


/-! ## C8 — interceptor rule selection -/

/-- Stable insertion by priority never yields the empty list. -/
theorem insertByPriorityDesc_ne_nil (rule : InterceptRule)
    (l : List InterceptRule) : Interceptor.insertByPriorityDesc rule l ≠ [] := by
  cases l with
  | nil => simp [Interceptor.insertByPriorityDesc]
  | cons r rs =>
      rw [Interceptor.insertByPriorityDesc]
      by_cases h : r.priority ≤ rule.priority
      · rw [if_pos h]; simp
      · rw [if_neg h]; simp

/-- The stable priority sort is empty only on the empty list. -/
theorem sortByPriorityDesc_eq_nil_iff (l : List InterceptRule) :
    Interceptor.sortByPriorityDesc l = [] ↔ l = [] := by
  cases l with
  | nil => simp [Interceptor.sortByPriorityDesc]
  | cons r rs =>
      rw [Interceptor.sortByPriorityDesc]
      simp [insertByPriorityDesc_ne_nil]

/-- The head of the stable priority-descending sort is an element of maximal
priority, and the earliest such element in list order: every element before
it has strictly smaller priority. -/
theorem sortByPriorityDesc_head_spec :
    ∀ (l : List InterceptRule) (r : InterceptRule),
      (Interceptor.sortByPriorityDesc l).head? = some r →
      r ∈ l ∧ (∀ x ∈ l, x.priority ≤ r.priority) ∧
        ∃ l1 l2, l = l1 ++ r :: l2 ∧ ∀ x ∈ l1, x.priority < r.priority := by
  intro l
  induction l with
  | nil => intro r h; simp [Interceptor.sortByPriorityDesc] at h
  | cons a rest ih =>
      intro r h
      rw [Interceptor.sortByPriorityDesc] at h
      cases hs : Interceptor.sortByPriorityDesc rest with
      | nil =>
          rw [hs] at h
          have hrest : rest = [] := (sortByPriorityDesc_eq_nil_iff rest).mp hs
          rw [show Interceptor.insertByPriorityDesc a [] = [a] from rfl] at h
          simp only [List.head?_cons, Option.some.injEq] at h
          subst h
          subst hrest
          exact ⟨by simp, by simp, [], [], rfl, by simp⟩
      | cons b bs =>
          rw [hs] at h
          obtain ⟨hmemb, hmaxb, l1, l2, hsplit, hlt⟩ :=
            ih b (by rw [hs]; rfl)
          rw [Interceptor.insertByPriorityDesc] at h
          by_cases hba : b.priority ≤ a.priority
          · rw [if_pos hba] at h
            simp only [List.head?_cons, Option.some.injEq] at h
            subst h
            refine ⟨by simp, ?_, [], rest, rfl, by simp⟩
            intro x hx
            rcases List.mem_cons.mp hx with hx | hx
            · subst hx; exact le_refl _
            · exact (hmaxb x hx).trans hba
          · rw [if_neg hba] at h
            simp only [List.head?_cons, Option.some.injEq] at h
            subst h
            refine ⟨List.mem_cons_of_mem a hmemb, ?_, a :: l1, l2,
              by rw [hsplit]; rfl, ?_⟩
            · intro x hx
              rcases List.mem_cons.mp hx with hx | hx
              · subst hx; exact (lt_of_not_le hba).le
              · exact hmaxb x hx
            · intro x hx
              rcases List.mem_cons.mp hx with hx | hx
              · subst hx; exact lt_of_not_le hba
              · exact hlt x hx

/-- C8: `findMatchingRule` returns `none` exactly when no enabled rule whose
method is `*` or the (upper-cased) request method has a pattern matching the
path; otherwise it returns a matching rule of maximal priority, and among
the matching rules sharing that maximal priority, the earliest-inserted one
(every matching rule before it has strictly smaller priority). -/
theorem intercept_rule_selection (st : InterceptorState)
    (method path : String) :
    (Interceptor.findMatchingRule st method path = none ↔
      st.rules.filter (Interceptor.ruleMatches method path) = []) ∧
    (∀ r, Interceptor.findMatchingRule st method path = some r →
      r ∈ st.rules.filter (Interceptor.ruleMatches method path) ∧
      (∀ r' ∈ st.rules.filter (Interceptor.ruleMatches method path),
        r'.priority ≤ r.priority) ∧
      ∃ l1 l2,
        st.rules.filter (Interceptor.ruleMatches method path) = l1 ++ r :: l2 ∧
        ∀ r' ∈ l1, r'.priority < r.priority) := by
  constructor
  · rw [Interceptor.findMatchingRule]
    rw [List.head?_eq_none_iff]
    exact sortByPriorityDesc_eq_nil_iff _
  · intro r hr
    rw [Interceptor.findMatchingRule] at hr
    exact sortByPriorityDesc_head_spec _ r hr

/-- C8 witness: among two catch-all rules inserted in order with priorities
1 and 5, the selector returns the priority-5 rule, and the spec conjuncts
instantiate concretely. -/
theorem intercept_rule_selection_witness :
    c8RuleHigh ∈ ([c8RuleLow, c8RuleHigh].filter
        (Interceptor.ruleMatches "GET" "/api/users")) ∧
    (∀ r' ∈ ([c8RuleLow, c8RuleHigh].filter
        (Interceptor.ruleMatches "GET" "/api/users")),
      r'.priority ≤ c8RuleHigh.priority) ∧
    ∃ l1 l2,
      ([c8RuleLow, c8RuleHigh].filter
        (Interceptor.ruleMatches "GET" "/api/users")) = l1 ++ c8RuleHigh :: l2 ∧
      ∀ r' ∈ l1, r'.priority < c8RuleHigh.priority :=
  (intercept_rule_selection
      { rules := [c8RuleLow, c8RuleHigh], ruleCounter := 2 }
    "GET" "/api/users").2 c8RuleHigh rfl

end ApiDouble
